import Mathlib

/-!
Verification development for the comet-t-browser agent security layer.

The development shallowly embeds the two decision-making modules:

* `command-sandbox.ts` — `CommandSandbox.validate`, the keyword / pattern
  classification engine together with its audit log, and
* `task-runner.ts` — `TaskRunner`, the task lifecycle
  (submit / approve / reject / execute / wait-for-approval).

JavaScript strings are modelled by Lean `String` (a structure around
`List Char`); all string operations used by the source (`toLowerCase`,
`trim`, `includes`, template joins, regular-expression tests) are
re-implemented below by structural recursion over the character list so
that every definition is executable and kernel-reducible.  Case folding is
modelled on the ASCII range (the policy keywords and regex literals are
all ASCII).  `Date` values are modelled as `Nat` timestamps supplied
explicitly by the caller, and `generateId` is modelled by passing the
fresh task id as an explicit argument.  The command execution backend
(`executeCommand`, a placeholder in the source and an external
collaborator per the specification) is modelled as an explicit function
argument returning a success flag with optional output and error.
-/

set_option maxHeartbeats 1000000
set_option linter.unusedVariables false

namespace CometT

/-- Characters of the JavaScript `\s` regex class (also the set trimmed by
`String.prototype.trim`). -/
def jsWhitespace (c : Char) : Bool :=
  c.toNat = 9 || c.toNat = 10 || c.toNat = 11 || c.toNat = 12 || c.toNat = 13 ||
  c.toNat = 32 || c.toNat = 160 || c.toNat = 5760 ||
  (8192 ≤ c.toNat && c.toNat ≤ 8202) || c.toNat = 8232 || c.toNat = 8233 ||
  c.toNat = 8239 || c.toNat = 8287 || c.toNat = 12288 || c.toNat = 65279

/-- Characters matched by the JavaScript regex `.` (everything except line
terminators). -/
def dotChar (c : Char) : Bool :=
  !(c.toNat = 10 || c.toNat = 13 || c.toNat = 8232 || c.toNat = 8233)

/-- ASCII lower-casing of one character, the fragment of
`String.prototype.toLowerCase` exercised by the policy data. -/
def asciiLower (c : Char) : Char :=
  if 65 ≤ c.toNat && c.toNat ≤ 90 then Char.ofNat (c.toNat + 32) else c

/-- Model of `s.toLowerCase()`. -/
def strLower (s : String) : String := ⟨s.data.map asciiLower⟩

/-- Drop leading JS whitespace from a character list. -/
def dropLeadingWs : List Char → List Char
  | [] => []
  | c :: rest => if jsWhitespace c then dropLeadingWs rest else c :: rest

/-- Model of `s.trim()`: strip JS whitespace from both ends. -/
def strTrim (s : String) : String :=
  ⟨((dropLeadingWs s.data.reverse).reverse : List Char) |> dropLeadingWs⟩

/-- Model of `Array.prototype.join(' ')`. -/
def joinSpace : List String → String
  | [] => ""
  | [s] => s
  | s :: rest => s ++ " " ++ joinSpace rest

/-- Model of `s.includes(c)` for a single character. -/
def strContainsChar (s : String) (c : Char) : Bool :=
  s.data.any (fun d => d = c)

/-- Does `needle` occur as a contiguous substring starting at some suffix of
the haystack list? -/
def substrAux (needle : List Char) : List Char → Bool
  | [] => needle.isEmpty
  | c :: rest => needle.isPrefixOf (c :: rest) || substrAux needle rest

/-- Model of `hay.includes(needle)` for strings. -/
def strIncludes (hay needle : String) : Bool := substrAux needle.data hay.data

/-- Boundary characters accepted by the left side of the sandbox's
word-boundary regex `(^|\s|[/\\])kw(\s|$)`: whitespace or a path separator. -/
def isBoundaryChar (c : Char) : Bool :=
  jsWhitespace c || c = '/' || c = '\\'

/-- Right-boundary test of the regex `(\s|$)`: end of input or whitespace. -/
def endBoundary : List Char → Bool
  | [] => true
  | c :: _ => jsWhitespace c

/-- Scan for a match of the regex `(^|\s|[/\\])kw(\s|$)`: `prevOk` records
whether the position just before the current suffix is a legal left
boundary (start of string, whitespace, or path separator). -/
def boundaryMatchAux (kw : List Char) : Bool → List Char → Bool
  | prevOk, [] => prevOk && kw.isEmpty
  | prevOk, c :: rest =>
      (prevOk && kw.isPrefixOf (c :: rest) && endBoundary ((c :: rest).drop kw.length))
      || boundaryMatchAux kw (isBoundaryChar c) rest

/-- Model of `new RegExp((^|\s|[/\\]) + escapeRegex(kw) + (\s|$), 'i').test s`.
The escaped keyword matches itself literally; the `i` flag is absorbed by the
fact that `validate` only ever applies the regex to lower-cased input. -/
def boundaryMatch (kw s : String) : Bool := boundaryMatchAux kw.data true s.data

/-- Right-boundary test following the specification's words, where a path
separator also closes a keyword.  Used solely to compare the specified
matcher with the implemented one. -/
def specEndBoundary : List Char → Bool
  | [] => true
  | c :: _ => isBoundaryChar c

/-- Scanner for the specification's symmetric word-boundary match. -/
def specBoundaryAux (kw : List Char) : Bool → List Char → Bool
  | prevOk, [] => prevOk && kw.isEmpty
  | prevOk, c :: rest =>
      (prevOk && kw.isPrefixOf (c :: rest) && specEndBoundary ((c :: rest).drop kw.length))
      || specBoundaryAux kw (isBoundaryChar c) rest

/-- Modelled from the spec: the word-boundary matcher described by the
specification, with the keyword bounded by start-of-string, whitespace, or a
path separator on BOTH sides (the source regex only accepts path separators
on the left).  Present only to state refinement claims about the matcher. -/
def specBoundaryMatch (kw s : String) : Bool := specBoundaryAux kw.data true s.data

/-! ### Regular-expression machinery for `DANGEROUS_PATTERNS`

Each dangerous pattern is compiled by hand into a continuation-passing
matcher over `List Char`; `searchAux` tries every start position, which is
exactly the semantics of `RegExp.prototype.test`. -/

/-- Match a literal string, then continue. -/
def litK (lit : List Char) (k : List Char → Bool) (s : List Char) : Bool :=
  lit.isPrefixOf s && k (s.drop lit.length)

/-- Match `\s*` (with full backtracking), then continue. -/
def wsStarK (k : List Char → Bool) : List Char → Bool
  | [] => k []
  | c :: rest => k (c :: rest) || (jsWhitespace c && wsStarK k rest)

/-- Match `\s+`, then continue. -/
def wsPlusK (k : List Char → Bool) (s : List Char) : Bool :=
  match s with
  | [] => false
  | c :: rest => jsWhitespace c && wsStarK k rest

/-- Match `.*` (any run of non-line-terminator characters, with
backtracking), then continue. -/
def dotStarK (k : List Char → Bool) : List Char → Bool
  | [] => k []
  | c :: rest => k (c :: rest) || (dotChar c && dotStarK k rest)

/-- Match one of several literal alternatives, then continue. -/
def altLitK (alts : List (List Char)) (k : List Char → Bool) (s : List Char) : Bool :=
  alts.any (fun l => l.isPrefixOf s && k (s.drop l.length))

/-- Match one character from a character class, then continue. -/
def charClassK (cs : List Char) (k : List Char → Bool) (s : List Char) : Bool :=
  match s with
  | [] => false
  | c :: rest => cs.any (fun d => d = c) && k rest

/-- Try a matcher at every start position (semantics of `RegExp.test`). -/
def searchAux (p : List Char → Bool) : List Char → Bool
  | [] => p []
  | c :: rest => p (c :: rest) || searchAux p rest

/-- Trivial continuation: the regex has nothing left to match. -/
def acceptK : List Char → Bool := fun _ => true

/-- Test of `/rm\s+(-rf?|--force|--recursive)/i` on lower-cased input. -/
def patRmForce (s : String) : Bool :=
  searchAux (litK "rm".data (wsPlusK
    (altLitK ["-rf".data, "-r".data, "--force".data, "--recursive".data] acceptK))) s.data

/-- Test of `/del\s+\/[sfq]/i` on lower-cased input. -/
def patDelSwitch (s : String) : Bool :=
  searchAux (litK "del".data (wsPlusK (litK "/".data
    (charClassK ['s', 'f', 'q'] acceptK)))) s.data

/-- Test of `/>\s*\/dev\/(sd|hd|nvme)/i` on lower-cased input. -/
def patDevWrite (s : String) : Bool :=
  searchAux (litK ">".data (wsStarK (litK "/dev/".data
    (altLitK ["sd".data, "hd".data, "nvme".data] acceptK)))) s.data

/-- Test of `/\|\s*(bash|sh|powershell|cmd)/i` on lower-cased input. -/
def patPipeShell (s : String) : Bool :=
  searchAux (litK "|".data (wsStarK
    (altLitK ["bash".data, "sh".data, "powershell".data, "cmd".data] acceptK))) s.data

/-- Test of `/curl.*\|\s*(bash|sh)/i` on lower-cased input. -/
def patCurlPipe (s : String) : Bool :=
  searchAux (litK "curl".data (dotStarK (litK "|".data
    (wsStarK (altLitK ["bash".data, "sh".data] acceptK))))) s.data

/-- Test of `/wget.*\|\s*(bash|sh)/i` on lower-cased input. -/
def patWgetPipe (s : String) : Bool :=
  searchAux (litK "wget".data (dotStarK (litK "|".data
    (wsStarK (altLitK ["bash".data, "sh".data] acceptK))))) s.data

/-- Test of `/base64\s+-d/i` on lower-cased input. -/
def patBase64 (s : String) : Bool :=
  searchAux (litK "base64".data (wsPlusK (litK "-d".data acceptK))) s.data

/-- Test of the regex `--no-preserve-root` (flag `i`) on lower-cased input. -/
def patNoPreserveRoot (s : String) : Bool :=
  searchAux (litK "--no-preserve-root".data acceptK) s.data

/-- Test of `/sudo\s+/i` on lower-cased input. -/
def patSudo (s : String) : Bool :=
  searchAux (litK "sudo".data (wsPlusK acceptK)) s.data

/-- Test of `/runas\s+/i` on lower-cased input. -/
def patRunas (s : String) : Bool :=
  searchAux (litK "runas".data (wsPlusK acceptK)) s.data

/-- Test of `/Start-Process.*-Verb\s+RunAs/i` on lower-cased input. -/
def patStartProcess (s : String) : Bool :=
  searchAux (litK "start-process".data (dotStarK (litK "-verb".data
    (wsPlusK (litK "runas".data acceptK))))) s.data

/-! ### Command sandbox data model (`command-sandbox.ts`) -/

/-- Embedding of interface `CommandRequest`.  The optional free-form
`context` map is `Record<string, unknown>` in the source and is never read
by any code, so it is omitted from the model.  `Date` is modelled as a
`Nat` timestamp. -/
structure CommandRequest where
  id : String
  agentRole : String
  command : String
  args : List String
  timestamp : Nat
deriving DecidableEq, Repr

/-- Embedding of the `riskLevel` string union
`'safe' | 'low' | 'medium' | 'high' | 'blocked'`. -/
inductive RiskLevel
  | safe
  | low
  | medium
  | high
  | blocked
deriving DecidableEq, Repr

/-- Embedding of interface `CommandValidationResult`. -/
structure CommandValidationResult where
  allowed : Bool
  requiresApproval : Bool
  reason : String
  riskLevel : RiskLevel
  violations : List String
deriving DecidableEq, Repr

/-- One entry of `DANGEROUS_PATTERNS`: the regex source text (used when
formatting a violation message) together with its compiled test on the
normalized full command. -/
structure DangerousPattern where
  source : String
  test : String → Bool

/-- Mutable state of a `CommandSandbox` instance: the policy collections and
the audit log.  (`pendingApprovals` and the sandbox-level approve / reject
helpers are not used by the task runner or by any claim and are omitted.) -/
structure SandboxState where
  blockedCommands : List String
  dangerousPatterns : List DangerousPattern
  approvalRequired : List String
  auditLog : List CommandRequest

/-- The `BLOCKED_COMMANDS` constant. -/
def BLOCKED_COMMANDS : List String :=
  [ "rm", "del", "rmdir", "format", "fdisk", "mkfs",
    "shutdown", "reboot", "halt", "poweroff",
    "kill", "killall", "pkill", "taskkill",
    "chmod", "chown", "chgrp", "icacls", "takeown",
    "useradd", "userdel", "usermod", "passwd",
    "net user", "net localgroup",
    "reg", "regedit", "sfc", "dism",
    "bcdedit", "diskpart",
    "netsh", "iptables", "ufw", "firewall-cmd",
    "route", "ifconfig", "ip link", "ip addr",
    "apt", "apt-get", "yum", "dnf", "pacman",
    "brew", "choco", "winget", "scoop",
    "npm install -g", "pip install", "gem install",
    "eval", "exec", "source", "bash -c", "sh -c",
    "powershell -c", "cmd /c", "wscript", "cscript",
    "dd", "shred", "wipe" ]

/-- The `DANGEROUS_PATTERNS` constant: regex source text paired with the
hand-compiled test from the section above. -/
def DANGEROUS_PATTERNS : List DangerousPattern :=
  [ ⟨"rm\\s+(-rf?|--force|--recursive)", patRmForce⟩,
    ⟨"del\\s+\\/[sfq]", patDelSwitch⟩,
    ⟨">\\s*\\/dev\\/(sd|hd|nvme)", patDevWrite⟩,
    ⟨"\\|\\s*(bash|sh|powershell|cmd)", patPipeShell⟩,
    ⟨"curl.*\\|\\s*(bash|sh)", patCurlPipe⟩,
    ⟨"wget.*\\|\\s*(bash|sh)", patWgetPipe⟩,
    ⟨"base64\\s+-d", patBase64⟩,
    ⟨"--no-preserve-root", patNoPreserveRoot⟩,
    ⟨"sudo\\s+", patSudo⟩,
    ⟨"runas\\s+", patRunas⟩,
    ⟨"Start-Process.*-Verb\\s+RunAs", patStartProcess⟩ ]

/-- The `APPROVAL_REQUIRED` constant. -/
def APPROVAL_REQUIRED : List String :=
  [ "git push", "git commit",
    "npm publish", "yarn publish",
    "docker", "kubectl",
    "ssh", "scp", "rsync",
    "curl", "wget", "fetch",
    "move", "mv", "copy", "cp" ]

/-- The `CommandSandbox` constructor: lower-case the policy keyword lists
and start with an empty audit log.  (JS `Set` insertion order equals list
order; the constant lists contain no duplicates.) -/
def initialSandbox : SandboxState :=
  { blockedCommands := BLOCKED_COMMANDS.map strLower
    dangerousPatterns := DANGEROUS_PATTERNS
    approvalRequired := APPROVAL_REQUIRED.map strLower
    auditLog := [] }

/-- The normalized command token: `request.command.toLowerCase().trim()`. -/
def normCommandLower (request : CommandRequest) : String :=
  strTrim (strLower request.command)

/-- The normalized argument tokens: `request.args.map(a => a.toLowerCase().trim())`. -/
def normArgsLower (request : CommandRequest) : List String :=
  request.args.map (fun a => strTrim (strLower a))

/-- The normalized full command:
the command token, a space, and the space-joined arguments, trimmed. -/
def normFullCommand (request : CommandRequest) : String :=
  strTrim (normCommandLower request ++ " " ++ joinSpace (normArgsLower request))

/-- Predicate equivalent of the per-keyword branch of the blocked loop in
`validate`: a multi-token keyword fires on a plain substring occurrence or
on a word-boundary occurrence; a single-token keyword fires on exact
equality with the command token or on a word-boundary occurrence. -/
def keywordViolation (blocked commandLower fullCommand : String) : Bool :=
  if strContainsChar blocked ' ' then
    strIncludes fullCommand blocked || boundaryMatch blocked fullCommand
  else
    commandLower == blocked || boundaryMatch blocked fullCommand

/-- The blocked-keyword loop of `validate`, with the source's
check / `continue` structure: each keyword contributes at most one
violation, and the loop never stops early. -/
def checkBlocked (blockedCommands : List String) (commandLower fullCommand : String) :
    List String :=
  blockedCommands.foldl
    (fun acc blocked =>
      if strContainsChar blocked ' ' then
        if strIncludes fullCommand blocked then acc ++ ["Blocked command: " ++ blocked]
        else if boundaryMatch blocked fullCommand then acc ++ ["Blocked command: " ++ blocked]
        else acc
      else
        if commandLower == blocked then acc ++ ["Blocked command: " ++ blocked]
        else if boundaryMatch blocked fullCommand then acc ++ ["Blocked command: " ++ blocked]
        else acc)
    []

/-- The dangerous-pattern loop of `validate`. -/
def checkPatterns (patterns : List DangerousPattern) (fullCommand : String) : List String :=
  patterns.foldl
    (fun acc p =>
      if p.test fullCommand then acc ++ ["Dangerous pattern: " ++ p.source] else acc)
    []

/-- The approval-required loop of `validate` (breaks at the first match, so
it is existence over the list). -/
def checkApproval (approvalRequired : List String) (fullCommand : String) : Bool :=
  approvalRequired.any (fun approval =>
    if strContainsChar approval ' ' then strIncludes fullCommand approval
    else boundaryMatch approval fullCommand)

/-- Embedding of `CommandSandbox.validate`.  The request is appended to the
audit log before any classification, then the blocked keywords, dangerous
patterns, and approval-required keywords are evaluated exactly as in the
source. -/
def validate (st : SandboxState) (request : CommandRequest) :
    CommandValidationResult × SandboxState :=
  let commandLower := normCommandLower request
  let fullCommand := normFullCommand request
  let st' := { st with auditLog := st.auditLog ++ [request] }
  let violations :=
    checkBlocked st.blockedCommands commandLower fullCommand ++
    checkPatterns st.dangerousPatterns fullCommand
  if violations.length > 0 then
    ({ allowed := false
       requiresApproval := false
       reason := "Command blocked - security policy violation"
       riskLevel := .blocked
       violations := violations }, st')
  else
    let requiresApproval := checkApproval st.approvalRequired fullCommand
    ({ allowed := !requiresApproval
       requiresApproval := requiresApproval
       reason := if requiresApproval then "Command requires human operator approval"
                 else "Command passed validation"
       riskLevel := if requiresApproval then .medium else .safe
       violations := [] }, st')

/-! ### Task runner data model (`task-runner.ts`) -/

/-- Embedding of the task status string union. -/
inductive TaskStatus
  | pending
  | awaiting_approval
  | approved
  | executing
  | completed
  | failed
  | blocked
deriving DecidableEq, Repr

/-- One element of a task's `commands` array. -/
structure TaskCommand where
  command : String
  args : List String
deriving DecidableEq, Repr

/-- Embedding of interface `TaskResult`. -/
structure TaskResult where
  commandIndex : Nat
  success : Bool
  output : Option String
  error : Option String
  executedAt : Nat
deriving DecidableEq, Repr

/-- Embedding of interface `Task`. -/
structure Task where
  id : String
  agentRole : String
  description : String
  commands : List TaskCommand
  status : TaskStatus
  createdAt : Nat
  completedAt : Option Nat
  results : List TaskResult
  blockedCommands : List String
deriving DecidableEq, Repr

/-- Embedding of interface `TaskRunnerConfig`. -/
structure TaskRunnerConfig where
  requireApprovalForAll : Bool
  maxPendingTasks : Nat
  autoRejectBlockedTasks : Bool
deriving DecidableEq, Repr

/-- The `DEFAULT_CONFIG` constant. -/
def DEFAULT_CONFIG : TaskRunnerConfig :=
  { requireApprovalForAll := true
    maxPendingTasks := 10
    autoRejectBlockedTasks := true }

/-- Result contract of the external execution backend
(`executeCommand` in the source is a placeholder for it). -/
structure ExecResult where
  success : Bool
  output : Option String
  error : Option String
deriving DecidableEq, Repr

/-- Insertion-ordered association list standing for a JS `Map` from task ids
to tasks: `set` replaces in place when the key exists, otherwise appends. -/
def mapSet : List (String × Task) → String → Task → List (String × Task)
  | [], k, v => [(k, v)]
  | (k', v') :: rest, k, v =>
      if k' = k then (k, v) :: rest else (k', v') :: mapSet rest k v

/-- Model of `Map.prototype.get`. -/
def mapGet : List (String × Task) → String → Option Task
  | [], _ => none
  | (k', v') :: rest, k => if k' = k then some v' else mapGet rest k

/-- Mutable state of a `TaskRunner` instance together with the module-level
`sandbox` singleton it validates through.  `approvalCallbacks` records the
set of task ids with a registered wait-for-approval continuation (the
continuation itself only resolves the waiting caller and never touches task
state, so only the key set is modelled). -/
structure RunnerState where
  tasks : List (String × Task)
  config : TaskRunnerConfig
  approvalCallbacks : List String
  sandbox : SandboxState

/-- The `CommandRequest` built for command `i` of a submitted task. -/
def submitRequest (taskId agentRole : String) (now : Nat) (i : Nat) (cmd : TaskCommand) :
    CommandRequest :=
  { id := taskId ++ "-cmd-" ++ toString i
    agentRole := agentRole
    command := cmd.command
    args := cmd.args
    timestamp := now }

/-- Index the elements of a list starting from `i` (the `for` loop counter
of `submitTask` and `executeTask`). -/
def enumFrom (i : Nat) : List TaskCommand → List (Nat × TaskCommand)
  | [] => []
  | c :: rest => (i, c) :: enumFrom (i + 1) rest

/-- One iteration of the validation loop of `submitTask`, threading the
sandbox state and the `hasBlocked` / `requiresApproval` / `blockedCommands`
accumulators. -/
def submitStep (taskId agentRole : String) (now : Nat)
    (acc : SandboxState × Bool × Bool × List String) (icmd : Nat × TaskCommand) :
    SandboxState × Bool × Bool × List String :=
  let (sb, hasBlocked, requiresApproval, blockedCmds) := acc
  let (i, cmd) := icmd
  let (result, sb') := validate sb (submitRequest taskId agentRole now i cmd)
  let hasBlocked' := hasBlocked || result.riskLevel = RiskLevel.blocked
  let blockedCmds' :=
    if result.riskLevel = RiskLevel.blocked then
      blockedCmds ++ [cmd.command ++ " " ++ joinSpace cmd.args]
    else blockedCmds
  let requiresApproval' := requiresApproval || result.requiresApproval
  (sb', hasBlocked', requiresApproval', blockedCmds')

/-- Embedding of `TaskRunner.submitTask`.  `taskId` stands for the value of
`generateId()` and `now` for the `Date` timestamps taken during submission.
Every command is validated (no early exit), then the aggregate status is
decided: blocked wins outright, then approval, then direct approval-free
acceptance. -/
def submitTask (st : RunnerState) (taskId agentRole description : String)
    (commands : List TaskCommand) (now : Nat) : Task × RunnerState :=
  let folded := (enumFrom 0 commands).foldl (submitStep taskId agentRole now)
    (st.sandbox, false, st.config.requireApprovalForAll, [])
  let sb' := folded.1
  let hasBlocked := folded.2.1
  let requiresApproval := folded.2.2.1
  let blockedCmds := folded.2.2.2
  let base : Task :=
    { id := taskId
      agentRole := agentRole
      description := description
      commands := commands
      status := TaskStatus.pending
      createdAt := now
      completedAt := none
      results := []
      blockedCommands := blockedCmds }
  let task :=
    if hasBlocked then { base with status := TaskStatus.blocked }
    else if requiresApproval then { base with status := TaskStatus.awaiting_approval }
    else { base with status := TaskStatus.approved }
  (task, { st with sandbox := sb', tasks := mapSet st.tasks taskId task })

/-- Embedding of `TaskRunner.approveTask`: legal only from
`awaiting_approval`; on success sets the status to `approved` and consumes
any registered approval callback (resolving the waiting caller with
`true`). -/
def approveTask (st : RunnerState) (taskId operatorName : String) : Bool × RunnerState :=
  match mapGet st.tasks taskId with
  | none => (false, st)
  | some task =>
      if task.status ≠ TaskStatus.awaiting_approval then (false, st)
      else
        let task' := { task with status := TaskStatus.approved }
        (true, { st with
          tasks := mapSet st.tasks taskId task'
          approvalCallbacks := st.approvalCallbacks.filter (fun k => k ≠ taskId) })

/-- Embedding of `TaskRunner.rejectTask`: legal only from
`awaiting_approval`; on success sets the status to `failed` and consumes any
registered approval callback (resolving the waiting caller with `false`). -/
def rejectTask (st : RunnerState) (taskId : String) : Bool × RunnerState :=
  match mapGet st.tasks taskId with
  | none => (false, st)
  | some task =>
      if task.status ≠ TaskStatus.awaiting_approval then (false, st)
      else
        let task' := { task with status := TaskStatus.failed }
        (true, { st with
          tasks := mapSet st.tasks taskId task'
          approvalCallbacks := st.approvalCallbacks.filter (fun k => k ≠ taskId) })

/-- The execution loop of `executeTask`, parameterized by the external
backend: run the indexed commands in order, append one `TaskResult` each,
stop at the first failure with status `failed`, and on full success stamp
`completedAt` and set status `completed`. -/
def execLoop (backend : String → List String → ExecResult) (now : Nat) :
    Task → List (Nat × TaskCommand) → Task
  | task, [] =>
      { task with status := TaskStatus.completed, completedAt := some now }
  | task, (i, cmd) :: rest =>
      let r := backend cmd.command cmd.args
      let task' := { task with results := task.results ++
        [{ commandIndex := i
           success := r.success
           output := r.output
           error := r.error
           executedAt := now }] }
      if r.success then execLoop backend now task' rest
      else { task' with status := TaskStatus.failed }

/-- Embedding of `TaskRunner.executeTask`.  The backend (the source's
placeholder `executeCommand`, an external collaborator) is passed as a total
function; `now` stands for the `Date` timestamps taken during execution.
A missing task or a task not in `approved` raises (modelled as
`Except.error`) and performs no work; otherwise the status moves through
`executing` and the loop above runs. -/
def executeTask (st : RunnerState) (taskId : String)
    (backend : String → List String → ExecResult) (now : Nat) :
    Except String Task × RunnerState :=
  match mapGet st.tasks taskId with
  | none => (Except.error ("Task " ++ taskId ++ " not found"), st)
  | some task =>
      if task.status ≠ TaskStatus.approved then
        (Except.error ("Task " ++ taskId ++ " is not approved for execution"), st)
      else
        let started := { task with status := TaskStatus.executing }
        let finished := execLoop backend now started (enumFrom 0 task.commands)
        (Except.ok finished, { st with tasks := mapSet st.tasks taskId finished })

/-- Embedding of the timeout resolution path of `TaskRunner.waitForApproval`:
the task is looked up (absent → `false`; already `approved` → `true`; any
other non-waiting status → `false`); for a task in `awaiting_approval` a
callback is registered and, when the timeout fires with no decision, the
callback is deleted again and the promise resolves `false`.  The task map is
never touched. -/
def waitForApprovalTimeout (st : RunnerState) (taskId : String) : Bool × RunnerState :=
  match mapGet st.tasks taskId with
  | none => (false, st)
  | some task =>
      if task.status = TaskStatus.approved then (true, st)
      else if task.status ≠ TaskStatus.awaiting_approval then (false, st)
      else
        (false, { st with
          approvalCallbacks := st.approvalCallbacks.filter (fun k => k ≠ taskId) })

/-- Embedding of `TaskRunner.getTask`. -/
def getTask (st : RunnerState) (taskId : String) : Option Task :=
  mapGet st.tasks taskId

/-! ### Operation traces over a runner -/

/-- One externally invokable runner operation, with the nondeterministic
inputs (fresh id, clock, execution backend) carried explicitly. -/
inductive RunnerOp
  | submit (taskId agentRole description : String) (commands : List TaskCommand) (now : Nat)
  | approve (taskId operatorName : String)
  | reject (taskId : String)
  | execute (taskId : String) (backend : String → List String → ExecResult) (now : Nat)
  | waitTimeout (taskId : String)
  | query (taskId : String)

/-- Observable outcome of one runner operation. -/
inductive RunnerOutput
  | submitted (task : Task)
  | flag (b : Bool)
  | execOutcome (r : Except String Task)
  | queried (t : Option Task)

/-- Run one operation against the runner state. -/
def runOp (st : RunnerState) : RunnerOp → RunnerOutput × RunnerState
  | RunnerOp.submit taskId agentRole description commands now =>
      let (task, st') := submitTask st taskId agentRole description commands now
      (RunnerOutput.submitted task, st')
  | RunnerOp.approve taskId operatorName =>
      let (b, st') := approveTask st taskId operatorName
      (RunnerOutput.flag b, st')
  | RunnerOp.reject taskId =>
      let (b, st') := rejectTask st taskId
      (RunnerOutput.flag b, st')
  | RunnerOp.execute taskId backend now =>
      let (r, st') := executeTask st taskId backend now
      (RunnerOutput.execOutcome r, st')
  | RunnerOp.waitTimeout taskId =>
      let (b, st') := waitForApprovalTimeout st taskId
      (RunnerOutput.flag b, st')
  | RunnerOp.query taskId =>
      (RunnerOutput.queried (getTask st taskId), st)

/-- Run a sequence of operations, collecting the outputs. -/
def runOps (st : RunnerState) : List RunnerOp → List RunnerOutput × RunnerState
  | [] => ([], st)
  | op :: rest =>
      let (out, st') := runOp st op
      let (outs, st'') := runOps st' rest
      (out :: outs, st'')

/-- The validation outcomes of a task's commands, as seen by `submitTask`
(the classification half of `validate` never reads the audit log, so the
threaded sandbox state can be replaced by the submission-time one). -/
def validationOutcomes (sb : SandboxState) (taskId agentRole : String) (now : Nat)
    (commands : List TaskCommand) : List CommandValidationResult :=
  (enumFrom 0 commands).map
    (fun ic => (validate sb (submitRequest taskId agentRole now ic.1 ic.2)).1)

/-! ### Concrete fixtures used by witnesses -/

/-- A two-command task already in `approved` state. -/
def taskTwo : Task :=
  { id := "t1"
    agentRole := "agent"
    description := "deploy"
    commands := [⟨"git", ["commit"]⟩, ⟨"git", ["push"]⟩]
    status := TaskStatus.approved
    createdAt := 0
    completedAt := none
    results := []
    blockedCommands := [] }

/-- Runner state holding `taskTwo`. -/
def runnerTwo : RunnerState :=
  { tasks := [("t1", taskTwo)]
    config := DEFAULT_CONFIG
    approvalCallbacks := []
    sandbox := initialSandbox }

/-- Execution backend that fails exactly on the `push` command. -/
def backendPushFails : String → List String → ExecResult := fun c args =>
  if args = ["push"] then ⟨false, none, some "push rejected"⟩
  else ⟨true, some "ok", none⟩

/-- A task stuck in `awaiting_approval` with a registered wait callback. -/
def taskAwait : Task :=
  { id := "t2"
    agentRole := "agent"
    description := "fetch data"
    commands := [⟨"curl", ["https://api.example.com/data"]⟩]
    status := TaskStatus.awaiting_approval
    createdAt := 0
    completedAt := none
    results := []
    blockedCommands := [] }

/-- Runner state holding `taskAwait`. -/
def runnerAwait : RunnerState :=
  { tasks := [("t2", taskAwait)]
    config := DEFAULT_CONFIG
    approvalCallbacks := ["t2"]
    sandbox := initialSandbox }

/-- A task terminated in `blocked` state. -/
def taskStuckBlocked : Task :=
  { id := "t3"
    agentRole := "agent"
    description := "cleanup"
    commands := [⟨"rm", ["-rf", "/tmp/x"]⟩]
    status := TaskStatus.blocked
    createdAt := 0
    completedAt := none
    results := []
    blockedCommands := ["rm -rf /tmp/x"] }

/-- Runner state holding `taskStuckBlocked`. -/
def runnerBlockedFx : RunnerState :=
  { tasks := [("t3", taskStuckBlocked)]
    config := DEFAULT_CONFIG
    approvalCallbacks := []
    sandbox := initialSandbox }

/-- An alternative configuration differing from `DEFAULT_CONFIG` only in
the `maxPendingTasks` and `autoRejectBlockedTasks` fields. -/
def altConfig : TaskRunnerConfig :=
  { requireApprovalForAll := true
    maxPendingTasks := 3
    autoRejectBlockedTasks := false }

/-! ### Helper lemmas about `validate` -/

/-- The audit-log side effect of `validate`: the request is appended,
whatever the classification. -/
theorem validate_snd (sb : SandboxState) (r : CommandRequest) :
    (validate sb r).2 = { sb with auditLog := sb.auditLog ++ [r] } := by
  simp only [validate]
  split <;> rfl

/-- The classification half of `validate` reads only the policy fields,
never the audit log. -/
theorem validate_fst_policy (sb sb' : SandboxState) (r : CommandRequest)
    (h1 : sb.blockedCommands = sb'.blockedCommands)
    (h2 : sb.dangerousPatterns = sb'.dangerousPatterns)
    (h3 : sb.approvalRequired = sb'.approvalRequired) :
    (validate sb r).1 = (validate sb' r).1 := by
  simp only [validate, h1, h2, h3]
  split <;> rfl

/-- Unfolding of the blocked-keyword loop into a filter over the keywords. -/
theorem checkBlocked_foldl (cl fc : String) (l : List String) : ∀ (acc : List String),
    l.foldl
      (fun acc blocked =>
        if strContainsChar blocked ' ' then
          if strIncludes fc blocked then acc ++ ["Blocked command: " ++ blocked]
          else if boundaryMatch blocked fc then acc ++ ["Blocked command: " ++ blocked]
          else acc
        else
          if cl == blocked then acc ++ ["Blocked command: " ++ blocked]
          else if boundaryMatch blocked fc then acc ++ ["Blocked command: " ++ blocked]
          else acc)
      acc
    = acc ++ (l.filter (fun b => keywordViolation b cl fc)).map
        (fun b => "Blocked command: " ++ b) := by
  induction l with
  | nil => intro acc; simp
  | cons b l ih =>
      intro acc
      rw [List.foldl_cons, ih]
      by_cases hsp : strContainsChar b ' '
      · by_cases hin : strIncludes fc b
        · simp [hsp, hin, keywordViolation, List.filter_cons]
        · by_cases hbm : boundaryMatch b fc
          · simp [hsp, hin, hbm, keywordViolation, List.filter_cons]
          · simp [hsp, hin, hbm, keywordViolation, List.filter_cons]
      · by_cases heq : cl == b
        · simp [hsp, heq, keywordViolation, List.filter_cons]
        · by_cases hbm : boundaryMatch b fc
          · simp [hsp, heq, hbm, keywordViolation, List.filter_cons]
          · simp [hsp, heq, hbm, keywordViolation, List.filter_cons]

/-- The function `checkBlocked` collects exactly the violating keywords, in policy
order. -/
theorem checkBlocked_eq (l : List String) (cl fc : String) :
    checkBlocked l cl fc
      = (l.filter (fun b => keywordViolation b cl fc)).map
          (fun b => "Blocked command: " ++ b) := by
  simpa [checkBlocked] using checkBlocked_foldl cl fc l []

/-- Unfolding of the dangerous-pattern loop into a filter over the
patterns. -/
theorem checkPatterns_foldl (fc : String) (l : List DangerousPattern) :
    ∀ (acc : List String),
    l.foldl
      (fun acc p =>
        if p.test fc then acc ++ ["Dangerous pattern: " ++ p.source] else acc)
      acc
    = acc ++ (l.filter (fun p => p.test fc)).map
        (fun p => "Dangerous pattern: " ++ p.source) := by
  induction l with
  | nil => intro acc; simp
  | cons p l ih =>
      intro acc
      by_cases hm : p.test fc
      · simp [hm, ih, List.filter_cons]
      · simp [hm, ih, List.filter_cons]

/-- The function `checkPatterns` collects exactly the matching patterns, in policy
order. -/
theorem checkPatterns_eq (l : List DangerousPattern) (fc : String) :
    checkPatterns l fc
      = (l.filter (fun p => p.test fc)).map
          (fun p => "Dangerous pattern: " ++ p.source) := by
  simpa [checkPatterns] using checkPatterns_foldl fc l []

/-- The violations reported by `validate` are exactly the accumulated
keyword violations followed by the accumulated pattern violations (the
non-blocked branch returns `[]`, which coincides with the empty
accumulation). -/
theorem validate_violations_eq (sb : SandboxState) (r : CommandRequest) :
    (validate sb r).1.violations
      = checkBlocked sb.blockedCommands (normCommandLower r) (normFullCommand r) ++
        checkPatterns sb.dangerousPatterns (normFullCommand r) := by
  simp only [validate]
  split
  · rfl
  · next h =>
      simp only [not_lt, Nat.le_zero, List.length_eq_zero] at h
      simp [h]

/-- The function `validate` reports risk level `blocked` exactly when its violation list
is non-empty. -/
theorem validate_blocked_iff (sb : SandboxState) (r : CommandRequest) :
    (validate sb r).1.riskLevel = RiskLevel.blocked ↔
      (validate sb r).1.violations ≠ [] := by
  simp only [validate]
  split
  · next h =>
      simp only [gt_iff_lt, List.length_pos] at h
      simpa using h
  · next h =>
      constructor
      · intro hr
        by_cases ha : checkApproval sb.approvalRequired (normFullCommand r) <;>
          simp [ha] at hr
      · intro hv
        simp at hv

/-- In the blocked branch both permission flags are off. -/
theorem validate_blocked_flags (sb : SandboxState) (r : CommandRequest)
    (h : (validate sb r).1.riskLevel = RiskLevel.blocked) :
    (validate sb r).1.allowed = false ∧ (validate sb r).1.requiresApproval = false := by
  revert h
  simp only [validate]
  split
  · intro _; exact ⟨rfl, rfl⟩
  · intro hr
    by_cases ha : checkApproval sb.approvalRequired (normFullCommand r) <;>
      simp [ha] at hr

/-- A violating blocked keyword contributes its violation entry and forces
the blocked classification. -/
theorem validate_keyword_mem (sb : SandboxState) (r : CommandRequest) (kw : String)
    (hmem : kw ∈ sb.blockedCommands)
    (hviol : keywordViolation kw (normCommandLower r) (normFullCommand r) = true) :
    ("Blocked command: " ++ kw) ∈ (validate sb r).1.violations ∧
      (validate sb r).1.riskLevel = RiskLevel.blocked := by
  have hm : ("Blocked command: " ++ kw) ∈ (validate sb r).1.violations := by
    rw [validate_violations_eq, checkBlocked_eq]
    exact List.mem_append_left _
      (List.mem_map_of_mem _ (List.mem_filter.mpr ⟨hmem, hviol⟩))
  refine ⟨hm, (validate_blocked_iff sb r).mpr ?_⟩
  exact fun hnil => by simp [hnil] at hm

/-! ### Occurrence lemmas for the word-boundary matcher -/

/-- A keyword sitting at the start of the scanned suffix, followed by
whitespace or the end of input, is found by the scanner with `prevOk`
set. -/
theorem boundaryMatchAux_here (kw post : List Char)
    (hpost : endBoundary post = true) :
    boundaryMatchAux kw true (kw ++ post) = true := by
  have hpre : kw.isPrefixOf (kw ++ post) = true :=
    List.isPrefixOf_iff_prefix.mpr (List.prefix_append kw post)
  have hdrop : (kw ++ post).drop kw.length = post := List.drop_left kw post
  cases kw with
  | nil =>
      cases post with
      | nil => simp [boundaryMatchAux]
      | cons c rest =>
          have hc : jsWhitespace c = true := by simpa [endBoundary] using hpost
          simp [boundaryMatchAux, List.isPrefixOf, endBoundary, hc]
  | cons e k =>
      rw [List.cons_append]
      simp only [boundaryMatchAux, Bool.or_eq_true, Bool.and_eq_true, Bool.true_and]
      left
      rw [← List.cons_append]
      exact ⟨hpre, by rw [hdrop]; exact hpost⟩

/-- A keyword preceded by a boundary character and followed by whitespace or
the end of input is found by the scanner from any earlier position. -/
theorem boundaryMatchAux_after (kw post : List Char) (hpost : endBoundary post = true) :
    ∀ (pre : List Char) (c : Char) (b : Bool), isBoundaryChar c = true →
    boundaryMatchAux kw b (pre ++ c :: (kw ++ post)) = true := by
  intro pre
  induction pre with
  | nil =>
      intro c b hc
      simp only [List.nil_append, boundaryMatchAux, Bool.or_eq_true]
      right
      rw [hc]
      exact boundaryMatchAux_here kw post hpost
  | cons d pre ih =>
      intro c b hc
      simp only [List.cons_append, boundaryMatchAux, Bool.or_eq_true]
      right
      exact ih c (isBoundaryChar d) hc

/-- Sufficiency half of the word-boundary regex: an occurrence of the
keyword with a legal left boundary (start of string, whitespace, or path
separator) and a legal right boundary (whitespace or end of string) makes
`boundaryMatch` succeed. -/
theorem boundaryMatch_of_occurrence (kw s : String) (pre post : List Char)
    (hs : s.data = pre ++ kw.data ++ post)
    (hleft : pre = [] ∨ ∃ pre' c, pre = pre' ++ [c] ∧ isBoundaryChar c = true)
    (hright : post = [] ∨ ∃ c post', post = c :: post' ∧ jsWhitespace c = true) :
    boundaryMatch kw s = true := by
  have hpost : endBoundary post = true := by
    rcases hright with h | ⟨c, post', hp, hc⟩
    · simp [h, endBoundary]
    · simp [hp, endBoundary, hc]
  unfold boundaryMatch
  rw [hs]
  rcases hleft with rfl | ⟨pre', c, hp, hc⟩
  · simpa using boundaryMatchAux_here kw.data post hpost
  · subst hp
    have := boundaryMatchAux_after kw.data post hpost pre' c true hc
    simpa [List.append_assoc] using this

/-! ### Helper lemmas about the task runner -/

/-- Setting a key makes it readable. -/
theorem mapGet_mapSet_self (m : List (String × Task)) (k : String) (v : Task) :
    mapGet (mapSet m k v) k = some v := by
  induction m with
  | nil => simp [mapSet, mapGet]
  | cons p m ih =>
      by_cases h : p.1 = k
      · simp [mapSet, mapGet, h]
      · simp [mapSet, mapGet, h, ih]

/-- Indexing with `enumFrom` preserves length. -/
theorem enumFrom_length (l : List TaskCommand) : ∀ i, (enumFrom i l).length = l.length := by
  induction l with
  | nil => intro i; rfl
  | cons c l ih => intro i; simp [enumFrom, ih]

/-- Characterization of the `submitTask` validation fold: the policy fields
are untouched, the audit log receives one record per command, and the three
accumulators compute disjunctions / collections over the per-command
validation outcomes taken against the submission-time policy. -/
theorem submitStep_foldl (taskId agentRole : String) (now : Nat) (sb0 : SandboxState) :
    ∀ (l : List (Nat × TaskCommand)) (sb : SandboxState) (hb ra : Bool) (bc : List String),
    sb.blockedCommands = sb0.blockedCommands →
    sb.dangerousPatterns = sb0.dangerousPatterns →
    sb.approvalRequired = sb0.approvalRequired →
    (let folded := l.foldl (submitStep taskId agentRole now) (sb, hb, ra, bc)
     folded.1.blockedCommands = sb0.blockedCommands ∧
     folded.1.dangerousPatterns = sb0.dangerousPatterns ∧
     folded.1.approvalRequired = sb0.approvalRequired ∧
     folded.1.auditLog = sb.auditLog ++
       l.map (fun ic => submitRequest taskId agentRole now ic.1 ic.2) ∧
     folded.2.1 = (hb || l.any (fun ic =>
       (validate sb0 (submitRequest taskId agentRole now ic.1 ic.2)).1.riskLevel
         = RiskLevel.blocked)) ∧
     folded.2.2.1 = (ra || l.any (fun ic =>
       (validate sb0 (submitRequest taskId agentRole now ic.1 ic.2)).1.requiresApproval)) ∧
     folded.2.2.2 = bc ++ (l.filter (fun ic =>
       (validate sb0 (submitRequest taskId agentRole now ic.1 ic.2)).1.riskLevel
         = RiskLevel.blocked)).map
         (fun ic => ic.2.command ++ " " ++ joinSpace ic.2.args)) := by
  intro l
  induction l with
  | nil =>
      intro sb hb ra bc h1 h2 h3
      simp [h1, h2, h3]
  | cons ic l ih =>
      intro sb hb ra bc h1 h2 h3
      have hfst : (validate sb (submitRequest taskId agentRole now ic.1 ic.2)).1
          = (validate sb0 (submitRequest taskId agentRole now ic.1 ic.2)).1 :=
        validate_fst_policy sb sb0 _ h1 h2 h3
      have hsnd : (validate sb (submitRequest taskId agentRole now ic.1 ic.2)).2
          = { sb with auditLog := sb.auditLog ++
              [submitRequest taskId agentRole now ic.1 ic.2] } :=
        validate_snd sb _
      have hstep : submitStep taskId agentRole now (sb, hb, ra, bc) ic =
          ((validate sb (submitRequest taskId agentRole now ic.1 ic.2)).2,
           hb || decide ((validate sb0 (submitRequest taskId agentRole now ic.1 ic.2)).1.riskLevel
             = RiskLevel.blocked),
           ra || (validate sb0 (submitRequest taskId agentRole now ic.1 ic.2)).1.requiresApproval,
           if (validate sb0 (submitRequest taskId agentRole now ic.1 ic.2)).1.riskLevel
               = RiskLevel.blocked then
             bc ++ [ic.2.command ++ " " ++ joinSpace ic.2.args]
           else bc) := by
        simp only [submitStep, hfst]
      rw [List.foldl_cons, hstep]
      have ih' := ih (validate sb (submitRequest taskId agentRole now ic.1 ic.2)).2
        (hb || decide ((validate sb0 (submitRequest taskId agentRole now ic.1 ic.2)).1.riskLevel
          = RiskLevel.blocked))
        (ra || (validate sb0 (submitRequest taskId agentRole now ic.1 ic.2)).1.requiresApproval)
        (if (validate sb0 (submitRequest taskId agentRole now ic.1 ic.2)).1.riskLevel
            = RiskLevel.blocked then
           bc ++ [ic.2.command ++ " " ++ joinSpace ic.2.args]
         else bc)
        (by rw [hsnd]; exact h1) (by rw [hsnd]; exact h2) (by rw [hsnd]; exact h3)
      obtain ⟨g1, g2, g3, g4, g5, g6, g7⟩ := ih'
      refine ⟨g1, g2, g3, ?_, ?_, ?_, ?_⟩
      · rw [g4, hsnd]
        simp [List.append_assoc]
      · rw [g5]
        by_cases hbl : (validate sb0 (submitRequest taskId agentRole now ic.1 ic.2)).1.riskLevel
            = RiskLevel.blocked
        · simp [hbl, Bool.or_assoc]
        · simp [hbl, Bool.or_assoc]
      · rw [g6]
        simp [Bool.or_assoc]
      · rw [g7]
        by_cases hbl : (validate sb0 (submitRequest taskId agentRole now ic.1 ic.2)).1.riskLevel
            = RiskLevel.blocked
        · simp [hbl, List.filter_cons, List.append_assoc]
        · simp [hbl, List.filter_cons]

/-- Characterization of the execution loop: the first failing command (if
any) truncates the run. -/
theorem execLoop_eq (backend : String → List String → ExecResult) (now : Nat) :
    ∀ (l : List (Nat × TaskCommand)) (t : Task),
    execLoop backend now t l =
      (let p : Nat × TaskCommand → Bool := fun ic => (backend ic.2.command ic.2.args).success
       let mkRes : Nat × TaskCommand → TaskResult := fun ic =>
         { commandIndex := ic.1
           success := (backend ic.2.command ic.2.args).success
           output := (backend ic.2.command ic.2.args).output
           error := (backend ic.2.command ic.2.args).error
           executedAt := now }
       if (l.takeWhile p).length = l.length then
         { t with status := TaskStatus.completed, completedAt := some now,
                  results := t.results ++ l.map mkRes }
       else
         { t with status := TaskStatus.failed,
                  results := t.results ++ (l.take ((l.takeWhile p).length + 1)).map mkRes }) := by
  intro l
  induction l with
  | nil => intro t; simp [execLoop]
  | cons ic l ih =>
      intro t
      obtain ⟨i, cmd⟩ := ic
      simp only [execLoop]
      by_cases hs : (backend cmd.command cmd.args).success
      · rw [if_pos hs, ih]
        by_cases hall : (l.takeWhile
            (fun ic => (backend ic.2.command ic.2.args).success)).length = l.length
        · simp [List.takeWhile_cons, hs, hall, List.append_assoc]
        · simp [List.takeWhile_cons, hs, hall, List.append_assoc]
      · rw [if_neg hs]
        have hzero : ¬ ((0 : Nat) = l.length + 1) := by omega
        simp [List.takeWhile_cons, hs, hzero]

/-- Running `any` over a mapped list tests the composite predicate. -/
theorem listAny_map {α β : Type} (l : List α) (f : α → β) (p : β → Bool) :
    (l.map f).any p = l.any (fun a => p (f a)) := by
  induction l with
  | nil => rfl
  | cons a l ih => simp [ih]

/-! ### Claim theorems -/

/-- Claim C1, counterexample: for the multi-token blocked keyword
`net user` and the invocation `mynet userx`, `validate` reports the keyword
violation although the phrase occurs only as a substring embedded inside
the longer tokens `mynet` and `userx` — neither the specified symmetric
word-boundary match nor even the implementation's own boundary regex
accepts it.  The claim that a keyword violation arises only at word
boundaries is therefore false. -/
theorem claim1_counterexample :
    "net user" ∈ initialSandbox.blockedCommands ∧
    strContainsChar "net user" ' ' = true ∧
    ("Blocked command: net user")
      ∈ (validate initialSandbox ⟨"r1", "agent", "mynet", ["userx"], 0⟩).1.violations ∧
    specBoundaryMatch "net user"
      (normFullCommand ⟨"r1", "agent", "mynet", ["userx"], 0⟩) = false ∧
    boundaryMatch "net user"
      (normFullCommand ⟨"r1", "agent", "mynet", ["userx"], 0⟩) = false := by
  decide

/-- Claim C1 (amended): for every multi-token blocked keyword, a plain
substring occurrence of the keyword anywhere in the normalized full command
already classifies the invocation as blocked by that keyword — the
word-boundary variant is only a redundant second alternative, so embedding
inside longer unrelated tokens does not prevent (and is not needed for)
the blocked classification. -/
theorem validate_multitoken_substring_blocks (sb : SandboxState) (request : CommandRequest)
    (kw : String) (hmem : kw ∈ sb.blockedCommands) (hsp : strContainsChar kw ' ' = true)
    (hsub : strIncludes (normFullCommand request) kw = true) :
    ("Blocked command: " ++ kw) ∈ (validate sb request).1.violations ∧
    (validate sb request).1.riskLevel = RiskLevel.blocked := by
  apply validate_keyword_mem sb request kw hmem
  simp [keywordViolation, hsp, hsub]

/-- Witness for the amended claim C1 at the counterexample's input. -/
theorem validate_multitoken_substring_blocks_witness :
    ("Blocked command: " ++ "net user")
      ∈ (validate initialSandbox ⟨"r1", "agent", "mynet", ["userx"], 0⟩).1.violations ∧
    (validate initialSandbox ⟨"r1", "agent", "mynet", ["userx"], 0⟩).1.riskLevel
      = RiskLevel.blocked :=
  validate_multitoken_substring_blocks initialSandbox ⟨"r1", "agent", "mynet", ["userx"], 0⟩
    "net user" (by decide) (by decide) (by decide)

/-- Claim C2: the aggregate status of a submitted task is `blocked` when
any command's validation outcome is blocked; otherwise `awaiting_approval`
when any outcome requires approval or the global `requireApprovalForAll`
flag is set; otherwise `approved`. -/
theorem submitTask_status (st : RunnerState) (taskId agentRole description : String)
    (commands : List TaskCommand) (now : Nat) :
    (submitTask st taskId agentRole description commands now).1.status =
      (let outcomes := validationOutcomes st.sandbox taskId agentRole now commands
       if outcomes.any (fun o => o.riskLevel = RiskLevel.blocked) then TaskStatus.blocked
       else if outcomes.any (fun o => o.requiresApproval)
            || st.config.requireApprovalForAll then TaskStatus.awaiting_approval
       else TaskStatus.approved) := by
  have h := submitStep_foldl taskId agentRole now st.sandbox (enumFrom 0 commands)
    st.sandbox false st.config.requireApprovalForAll [] rfl rfl rfl
  obtain ⟨_, _, _, _, g5, g6, _⟩ := h
  have hmapB : ((enumFrom 0 commands).map (fun ic =>
        (validate st.sandbox (submitRequest taskId agentRole now ic.1 ic.2)).1)).any
        (fun o => o.riskLevel = RiskLevel.blocked)
      = (enumFrom 0 commands).any (fun ic =>
        (validate st.sandbox (submitRequest taskId agentRole now ic.1 ic.2)).1.riskLevel
          = RiskLevel.blocked) := by
    rw [listAny_map]
  have hmapA : ((enumFrom 0 commands).map (fun ic =>
        (validate st.sandbox (submitRequest taskId agentRole now ic.1 ic.2)).1)).any
        (fun o => o.requiresApproval)
      = (enumFrom 0 commands).any (fun ic =>
        (validate st.sandbox (submitRequest taskId agentRole now ic.1 ic.2)).1.requiresApproval) := by
    rw [listAny_map]
  simp only [submitTask, validationOutcomes]
  simp only [g5, g6, hmapB, hmapA, Bool.false_or]
  by_cases hb : (enumFrom 0 commands).any (fun ic =>
      (validate st.sandbox (submitRequest taskId agentRole now ic.1 ic.2)).1.riskLevel
        = RiskLevel.blocked)
  · simp [hb]
  · by_cases ha : (enumFrom 0 commands).any (fun ic =>
        (validate st.sandbox (submitRequest taskId agentRole now ic.1 ic.2)).1.requiresApproval)
    · simp [hb, ha]
    · by_cases hf : st.config.requireApprovalForAll
      · simp [hb, ha, hf]
      · simp [hb, ha, hf]

/-- Claim C3: a validation outcome with risk level `blocked` has both
permission flags off, and the violation list is non-empty exactly when the
risk level is `blocked`. -/
theorem validate_outcome_invariants (sb : SandboxState) (r : CommandRequest) :
    ((validate sb r).1.riskLevel = RiskLevel.blocked →
      (validate sb r).1.allowed = false ∧ (validate sb r).1.requiresApproval = false) ∧
    ((validate sb r).1.violations ≠ [] ↔ (validate sb r).1.riskLevel = RiskLevel.blocked) :=
  ⟨fun h => validate_blocked_flags sb r h, (validate_blocked_iff sb r).symm⟩

/-- Claim C4, counterexample: the blocked keyword `rm` occurs in the
normalized command `ls rm/foo` bounded by whitespace on the left and a path
separator on the right, which the specification's symmetric matcher
accepts, yet `validate` classifies the invocation as safe with no
violations — the implementation's regex accepts path separators only as
LEFT boundaries, so a keyword immediately followed by `/` does not match.
The claim that a path separator on either side makes the keyword match (and
block) is therefore false. -/
theorem claim4_counterexample :
    "rm" ∈ initialSandbox.blockedCommands ∧
    specBoundaryMatch "rm" (normFullCommand ⟨"r2", "agent", "ls", ["rm/foo"], 0⟩) = true ∧
    (validate initialSandbox ⟨"r2", "agent", "ls", ["rm/foo"], 0⟩).1.riskLevel
      = RiskLevel.safe ∧
    (validate initialSandbox ⟨"r2", "agent", "ls", ["rm/foo"], 0⟩).1.violations = [] := by
  decide

/-- Claim C4 (amended): path separators act as boundary characters only on
the LEFT of a keyword (in addition to whitespace and start-of-string); the
right boundary must be whitespace or end-of-string.  Any single-token
blocked keyword occurring in the normalized full command with such
boundaries is matched and the command classified blocked. -/
theorem validate_keyword_left_separator_blocks (sb : SandboxState) (request : CommandRequest)
    (kw : String) (pre post : List Char)
    (hmem : kw ∈ sb.blockedCommands) (hsingle : strContainsChar kw ' ' = false)
    (hocc : (normFullCommand request).data = pre ++ kw.data ++ post)
    (hleft : pre = [] ∨ ∃ pre' c, pre = pre' ++ [c] ∧ isBoundaryChar c = true)
    (hright : post = [] ∨ ∃ c post', post = c :: post' ∧ jsWhitespace c = true) :
    ("Blocked command: " ++ kw) ∈ (validate sb request).1.violations ∧
    (validate sb request).1.riskLevel = RiskLevel.blocked := by
  apply validate_keyword_mem sb request kw hmem
  have hbm := boundaryMatch_of_occurrence kw (normFullCommand request) pre post hocc hleft hright
  simp [keywordViolation, hsingle, hbm]

/-- Witness for the amended claim C4: in `foo/rm` the keyword `rm` is
preceded by a path separator and followed by end-of-string, and the
invocation is blocked. -/
theorem validate_keyword_left_separator_blocks_witness :
    ("Blocked command: " ++ "rm")
      ∈ (validate initialSandbox ⟨"r3", "agent", "foo/rm", [], 0⟩).1.violations ∧
    (validate initialSandbox ⟨"r3", "agent", "foo/rm", [], 0⟩).1.riskLevel
      = RiskLevel.blocked :=
  validate_keyword_left_separator_blocks initialSandbox ⟨"r3", "agent", "foo/rm", [], 0⟩
    "rm" ['f', 'o', 'o', '/'] []
    (by decide) (by decide) (by decide)
    (Or.inr ⟨['f', 'o', 'o'], '/', by decide, by decide⟩) (Or.inl rfl)

/-- Claim C5: `validate` never short-circuits — its violation list is
exactly the list of all matching blocked keywords followed by all matching
dangerous patterns, in policy order; in particular `rm -rf /tmp/data` is
blocked with both the `rm` keyword violation and the `-rf` dangerous
pattern violation. -/
theorem validate_accumulates_all_violations :
    (∀ (sb : SandboxState) (r : CommandRequest),
      (validate sb r).1.violations =
        (sb.blockedCommands.filter
          (fun b => keywordViolation b (normCommandLower r) (normFullCommand r))).map
            (fun b => "Blocked command: " ++ b) ++
        (sb.dangerousPatterns.filter (fun p => p.test (normFullCommand r))).map
            (fun p => "Dangerous pattern: " ++ p.source)) ∧
    ((validate initialSandbox ⟨"r4", "agent", "rm", ["-rf", "/tmp/data"], 0⟩).1.riskLevel
        = RiskLevel.blocked ∧
     (validate initialSandbox ⟨"r4", "agent", "rm", ["-rf", "/tmp/data"], 0⟩).1.violations
        = ["Blocked command: rm", "Dangerous pattern: rm\\s+(-rf?|--force|--recursive)"]) := by
  refine ⟨?_, ?_, ?_⟩
  · intro sb r
    rw [validate_violations_eq, checkBlocked_eq, checkPatterns_eq]
  · decide
  · decide

/-- Claim C6: every `validate` call appends exactly its request to the
audit log, before and independent of classification; consequently a
submitted task of `n` commands grows the audit log by exactly `n` records
whatever the task's resulting status. -/
theorem audit_per_validation :
    (∀ (sb : SandboxState) (r : CommandRequest),
      (validate sb r).2.auditLog = sb.auditLog ++ [r]) ∧
    (∀ (st : RunnerState) (taskId agentRole description : String)
       (commands : List TaskCommand) (now : Nat),
      (submitTask st taskId agentRole description commands now).2.sandbox.auditLog.length
        = st.sandbox.auditLog.length + commands.length) := by
  constructor
  · intro sb r
    rw [validate_snd]
  · intro st taskId agentRole description commands now
    have h := submitStep_foldl taskId agentRole now st.sandbox (enumFrom 0 commands)
      st.sandbox false st.config.requireApprovalForAll [] rfl rfl rfl
    obtain ⟨_, _, _, g4, _, _, _⟩ := h
    simp only [submitTask]
    rw [g4]
    simp [enumFrom_length]

/-- Claim C7: executing an approved task runs the commands strictly in
order, appends one result per executed command, stops at the first failure
with status `failed` (leaving exactly the results of the commands up to and
including the failing one), and on full success becomes `completed` with
the completion timestamp set. -/
theorem executeTask_ordered_fail_fast (st : RunnerState) (taskId : String)
    (backend : String → List String → ExecResult) (now : Nat) (task : Task)
    (hget : mapGet st.tasks taskId = some task)
    (hst : task.status = TaskStatus.approved) :
    (let p : Nat × TaskCommand → Bool := fun ic => (backend ic.2.command ic.2.args).success
     let mkRes : Nat × TaskCommand → TaskResult := fun ic =>
       { commandIndex := ic.1
         success := (backend ic.2.command ic.2.args).success
         output := (backend ic.2.command ic.2.args).output
         error := (backend ic.2.command ic.2.args).error
         executedAt := now }
     let indexed := enumFrom 0 task.commands
     let finished :=
       if (indexed.takeWhile p).length = indexed.length then
         { task with status := TaskStatus.completed, completedAt := some now,
                     results := task.results ++ indexed.map mkRes }
       else
         { task with status := TaskStatus.failed,
                     results := task.results ++
                       (indexed.take ((indexed.takeWhile p).length + 1)).map mkRes }
     executeTask st taskId backend now =
       (Except.ok finished, { st with tasks := mapSet st.tasks taskId finished })) := by
  simp only [executeTask, hget, hst, ne_eq, not_true_eq_false, Bool.false_eq_true,
    if_false, ite_false]
  rw [execLoop_eq]

/-- Witness for claim C7: a two-command approved task whose second command
fails ends `failed` with exactly two results. -/
theorem executeTask_ordered_fail_fast_witness :
    (let p : Nat × TaskCommand → Bool :=
       fun ic => (backendPushFails ic.2.command ic.2.args).success
     let mkRes : Nat × TaskCommand → TaskResult := fun ic =>
       { commandIndex := ic.1
         success := (backendPushFails ic.2.command ic.2.args).success
         output := (backendPushFails ic.2.command ic.2.args).output
         error := (backendPushFails ic.2.command ic.2.args).error
         executedAt := 7 }
     let indexed := enumFrom 0 taskTwo.commands
     let finished :=
       if (indexed.takeWhile p).length = indexed.length then
         { taskTwo with status := TaskStatus.completed, completedAt := some 7,
                        results := taskTwo.results ++ indexed.map mkRes }
       else
         { taskTwo with status := TaskStatus.failed,
                        results := taskTwo.results ++
                          (indexed.take ((indexed.takeWhile p).length + 1)).map mkRes }
     executeTask runnerTwo "t1" backendPushFails 7 =
       (Except.ok finished, { runnerTwo with tasks := mapSet runnerTwo.tasks "t1" finished })) :=
  executeTask_ordered_fail_fast runnerTwo "t1" backendPushFails 7 taskTwo
    (by decide) (by decide)

/-- Claim C8: invoking approve, reject, or execute against a task not in
the required source state reports a local failure (a boolean, or an error
value for execute) and performs no work — the runner state is returned
unchanged; in particular a second approve after a successful one returns
`false` and leaves the state established by the first untouched. -/
theorem invalid_transition_no_work (st : RunnerState)
    (taskId opName opName2 : String)
    (backend : String → List String → ExecResult) (now : Nat) :
    ((∀ task, mapGet st.tasks taskId = some task →
        task.status ≠ TaskStatus.awaiting_approval →
        approveTask st taskId opName = (false, st) ∧
        rejectTask st taskId = (false, st)) ∧
     (mapGet st.tasks taskId = none →
        approveTask st taskId opName = (false, st) ∧
        rejectTask st taskId = (false, st))) ∧
    ((∀ task, mapGet st.tasks taskId = some task →
        task.status ≠ TaskStatus.approved →
        ∃ msg, executeTask st taskId backend now = (Except.error msg, st)) ∧
     (mapGet st.tasks taskId = none →
        ∃ msg, executeTask st taskId backend now = (Except.error msg, st))) ∧
    ((approveTask st taskId opName).1 = true →
       approveTask (approveTask st taskId opName).2 taskId opName2
         = (false, (approveTask st taskId opName).2)) := by
  refine ⟨⟨?_, ?_⟩, ⟨?_, ?_⟩, ?_⟩
  · intro task hm hstat
    constructor <;> simp [approveTask, rejectTask, hm, hstat]
  · intro hm
    constructor <;> simp [approveTask, rejectTask, hm]
  · intro task hm hstat
    exact ⟨"Task " ++ taskId ++ " is not approved for execution",
      by simp [executeTask, hm, hstat]⟩
  · intro hm
    exact ⟨"Task " ++ taskId ++ " not found", by simp [executeTask, hm]⟩
  · intro hfirst
    cases hm : mapGet st.tasks taskId with
    | none => simp [approveTask, hm] at hfirst
    | some t =>
        by_cases hstat : t.status = TaskStatus.awaiting_approval
        · simp only [approveTask, hm, hstat, ne_eq, not_true_eq_false, if_false, ite_false]
          simp [approveTask, mapGet_mapSet_self]
        · simp [approveTask, hm, hstat] at hfirst

/-- Witness for claim C8: approve / reject / execute all fail without state
change on a task stuck in `blocked`, and a second approve after a
successful one fails and changes nothing. -/
theorem invalid_transition_no_work_witness :
    (approveTask runnerBlockedFx "t3" "op" = (false, runnerBlockedFx) ∧
     rejectTask runnerBlockedFx "t3" = (false, runnerBlockedFx)) ∧
    (∃ msg, executeTask runnerBlockedFx "t3" backendPushFails 0
       = (Except.error msg, runnerBlockedFx)) ∧
    (approveTask (approveTask runnerAwait "t2" "op").2 "t2" "op2"
       = (false, (approveTask runnerAwait "t2" "op").2)) :=
  ⟨(invalid_transition_no_work runnerBlockedFx "t3" "op" "op2" backendPushFails 0).1.1
      taskStuckBlocked (by decide) (by decide),
   (invalid_transition_no_work runnerBlockedFx "t3" "op" "op2" backendPushFails 0).2.1.1
      taskStuckBlocked (by decide) (by decide),
   (invalid_transition_no_work runnerAwait "t2" "op" "op2" backendPushFails 0).2.2
      (by decide)⟩

/-- Claim C9: when the wait-for-approval timeout elapses with no decision
on a task in `awaiting_approval`, the wait resolves to `false`, the task
map is untouched (the task stays `awaiting_approval`), and a subsequent
approve still succeeds and moves the task to `approved`. -/
theorem wait_timeout_preserves (st : RunnerState) (taskId opName : String) (task : Task)
    (hget : mapGet st.tasks taskId = some task)
    (hst : task.status = TaskStatus.awaiting_approval) :
    (waitForApprovalTimeout st taskId).1 = false ∧
    ((waitForApprovalTimeout st taskId).2).tasks = st.tasks ∧
    getTask (waitForApprovalTimeout st taskId).2 taskId = some task ∧
    (approveTask (waitForApprovalTimeout st taskId).2 taskId opName).1 = true ∧
    getTask (approveTask (waitForApprovalTimeout st taskId).2 taskId opName).2 taskId
      = some { task with status := TaskStatus.approved } := by
  have hwait : waitForApprovalTimeout st taskId =
      (false, { st with
        approvalCallbacks := st.approvalCallbacks.filter (fun k => k ≠ taskId) }) := by
    simp [waitForApprovalTimeout, hget, hst]
  rw [hwait]
  refine ⟨rfl, rfl, ?_, ?_, ?_⟩
  · simpa [getTask] using hget
  · simp [approveTask, hget, hst]
  · simp [approveTask, getTask, hget, hst, mapGet_mapSet_self]

/-- Witness for claim C9 on a concrete stuck task. -/
theorem wait_timeout_preserves_witness :
    (waitForApprovalTimeout runnerAwait "t2").1 = false ∧
    ((waitForApprovalTimeout runnerAwait "t2").2).tasks = runnerAwait.tasks ∧
    getTask (waitForApprovalTimeout runnerAwait "t2").2 "t2" = some taskAwait ∧
    (approveTask (waitForApprovalTimeout runnerAwait "t2").2 "t2" "op").1 = true ∧
    getTask (approveTask (waitForApprovalTimeout runnerAwait "t2").2 "t2" "op").2 "t2"
      = some { taskAwait with status := TaskStatus.approved } :=
  wait_timeout_preserves runnerAwait "t2" "op" taskAwait (by decide) (by decide)

/-- No single runner operation reads `maxPendingTasks` or
`autoRejectBlockedTasks`: two states agreeing on tasks, callbacks, sandbox,
and the `requireApprovalForAll` flag produce the same output and the same
observable state, each keeping its own configuration record untouched. -/
theorem runOp_congr (s1 s2 : RunnerState) (op : RunnerOp)
    (h1 : s1.tasks = s2.tasks) (h2 : s1.approvalCallbacks = s2.approvalCallbacks)
    (h3 : s1.sandbox = s2.sandbox)
    (h4 : s1.config.requireApprovalForAll = s2.config.requireApprovalForAll) :
    (runOp s1 op).1 = (runOp s2 op).1 ∧
    (runOp s1 op).2.tasks = (runOp s2 op).2.tasks ∧
    (runOp s1 op).2.approvalCallbacks = (runOp s2 op).2.approvalCallbacks ∧
    (runOp s1 op).2.sandbox = (runOp s2 op).2.sandbox ∧
    (runOp s1 op).2.config = s1.config ∧ (runOp s2 op).2.config = s2.config := by
  cases op with
  | submit taskId agentRole description commands now =>
      simp [runOp, submitTask, h1, h2, h3, h4]
  | approve taskId operatorName =>
      simp only [runOp, approveTask, h1, h2, h3]
      cases hm : mapGet s2.tasks taskId with
      | none => simp [h1, h2, h3]
      | some t =>
          by_cases hstat : t.status = TaskStatus.awaiting_approval
          · simp [hstat, h1, h2, h3]
          · simp [hstat, h1, h2, h3]
  | reject taskId =>
      simp only [runOp, rejectTask, h1, h2, h3]
      cases hm : mapGet s2.tasks taskId with
      | none => simp [h1, h2, h3]
      | some t =>
          by_cases hstat : t.status = TaskStatus.awaiting_approval
          · simp [hstat, h1, h2, h3]
          · simp [hstat, h1, h2, h3]
  | execute taskId backend now =>
      simp only [runOp, executeTask, h1, h2, h3]
      cases hm : mapGet s2.tasks taskId with
      | none => simp [h1, h2, h3]
      | some t =>
          by_cases hstat : t.status = TaskStatus.approved
          · simp [hstat, h1, h2, h3]
          · simp [hstat, h1, h2, h3]
  | waitTimeout taskId =>
      simp only [runOp, waitForApprovalTimeout, h1, h2, h3]
      cases hm : mapGet s2.tasks taskId with
      | none => simp [h1, h2, h3]
      | some t =>
          by_cases happ : t.status = TaskStatus.approved
          · simp [happ, h1, h2, h3]
          · by_cases hstat : t.status = TaskStatus.awaiting_approval
            · simp [happ, hstat, h2]
            · simp [happ, hstat, h1, h2, h3]
  | query taskId =>
      simp [runOp, getTask, h1, h2, h3]

/-- Trace-level closure of `runOp_congr`. -/
theorem runOps_congr (ops : List RunnerOp) : ∀ (s1 s2 : RunnerState),
    s1.tasks = s2.tasks → s1.approvalCallbacks = s2.approvalCallbacks →
    s1.sandbox = s2.sandbox →
    s1.config.requireApprovalForAll = s2.config.requireApprovalForAll →
    (runOps s1 ops).1 = (runOps s2 ops).1 ∧
    (runOps s1 ops).2.tasks = (runOps s2 ops).2.tasks ∧
    (runOps s1 ops).2.approvalCallbacks = (runOps s2 ops).2.approvalCallbacks ∧
    (runOps s1 ops).2.sandbox = (runOps s2 ops).2.sandbox ∧
    (runOps s1 ops).2.config = s1.config ∧ (runOps s2 ops).2.config = s2.config := by
  induction ops with
  | nil =>
      intro s1 s2 h1 h2 h3 h4
      exact ⟨rfl, h1, h2, h3, rfl, rfl⟩
  | cons op rest ih =>
      intro s1 s2 h1 h2 h3 h4
      obtain ⟨o1, o2, o3, o4, o5, o6⟩ := runOp_congr s1 s2 op h1 h2 h3 h4
      have h4' : (runOp s1 op).2.config.requireApprovalForAll
          = (runOp s2 op).2.config.requireApprovalForAll := by
        rw [o5, o6]; exact h4
      obtain ⟨r1, r2, r3, r4, r5, r6⟩ := ih (runOp s1 op).2 (runOp s2 op).2 o2 o3 o4 h4'
      refine ⟨?_, ?_, ?_, ?_, ?_, ?_⟩ <;>
        simp only [runOps] <;>
        first
          | (rw [o1, r1])
          | exact r2
          | exact r3
          | exact r4
          | (rw [r5, o5])
          | (rw [r6, o6])

/-- Claim C10: the configuration fields `maxPendingTasks` and
`autoRejectBlockedTasks` have no behavioural effect — two runner instances
whose configurations differ only in those fields produce identical outputs
and identical observable state under every operation sequence (so no
pending-task limit is ever enforced). -/
theorem unused_config_fields (tasks : List (String × Task)) (cb : List String)
    (sb : SandboxState) (c1 c2 : TaskRunnerConfig) (ops : List RunnerOp)
    (h : c1.requireApprovalForAll = c2.requireApprovalForAll) :
    (runOps ⟨tasks, c1, cb, sb⟩ ops).1 = (runOps ⟨tasks, c2, cb, sb⟩ ops).1 ∧
    (runOps ⟨tasks, c1, cb, sb⟩ ops).2.tasks = (runOps ⟨tasks, c2, cb, sb⟩ ops).2.tasks ∧
    (runOps ⟨tasks, c1, cb, sb⟩ ops).2.approvalCallbacks
      = (runOps ⟨tasks, c2, cb, sb⟩ ops).2.approvalCallbacks ∧
    (runOps ⟨tasks, c1, cb, sb⟩ ops).2.sandbox
      = (runOps ⟨tasks, c2, cb, sb⟩ ops).2.sandbox ∧
    (runOps ⟨tasks, c1, cb, sb⟩ ops).2.config = c1 ∧
    (runOps ⟨tasks, c2, cb, sb⟩ ops).2.config = c2 :=
  runOps_congr ops ⟨tasks, c1, cb, sb⟩ ⟨tasks, c2, cb, sb⟩ rfl rfl rfl h

/-- Witness for claim C10: `DEFAULT_CONFIG` and a configuration with a
different pending-task limit and auto-reject flag behave identically on a
concrete submit / approve / query trace. -/
theorem unused_config_fields_witness :
    (let ops := [RunnerOp.submit "t1" "agent" "list" [⟨"ls", ["-la"]⟩] 0,
                 RunnerOp.approve "t1" "op", RunnerOp.query "t1"]
     (runOps ⟨[], DEFAULT_CONFIG, [], initialSandbox⟩ ops).1
       = (runOps ⟨[], altConfig, [], initialSandbox⟩ ops).1 ∧
     (runOps ⟨[], DEFAULT_CONFIG, [], initialSandbox⟩ ops).2.tasks
       = (runOps ⟨[], altConfig, [], initialSandbox⟩ ops).2.tasks ∧
     (runOps ⟨[], DEFAULT_CONFIG, [], initialSandbox⟩ ops).2.approvalCallbacks
       = (runOps ⟨[], altConfig, [], initialSandbox⟩ ops).2.approvalCallbacks ∧
     (runOps ⟨[], DEFAULT_CONFIG, [], initialSandbox⟩ ops).2.sandbox
       = (runOps ⟨[], altConfig, [], initialSandbox⟩ ops).2.sandbox ∧
     (runOps ⟨[], DEFAULT_CONFIG, [], initialSandbox⟩ ops).2.config = DEFAULT_CONFIG ∧
     (runOps ⟨[], altConfig, [], initialSandbox⟩ ops).2.config = altConfig) :=
  unused_config_fields [] [] initialSandbox DEFAULT_CONFIG altConfig
    [RunnerOp.submit "t1" "agent" "list" [⟨"ls", ["-la"]⟩] 0,
     RunnerOp.approve "t1" "op", RunnerOp.query "t1"] rfl

end CometT
